import Mathlib

/-!
Shallow embedding of the MIFF 2025 scraper pipeline (`miff_scraper.py`).

Parsed HTML documents are modelled as records holding the query results that
the code actually reads (headings, links with `(href, text)`, paragraph texts,
whole-page text, quote-element texts, ancestor texts, time-text nodes).
The Python regexes are translated into structurally recursive scanners over
`List Char`, mirroring the regex engine's leftmost search with the relevant
backtracking behaviour.  External collaborators (the HTTP fetch and
`urllib.parse.urljoin`) are passed in as function parameters, as the spec
treats them as black-box capabilities.
-/

namespace MIFF

/-! ## Character and string primitives -/

/-- Python whitespace class `\s` restricted to ASCII: space, tab, newline,
carriage return, vertical tab, form feed. -/
def isPyWs (c : Char) : Bool :=
  c == ' ' || c == '\t' || c == '\n' || c == '\r' || c == '\x0b' || c == '\x0c'

/-- Python `str.strip()` on a character list: drop leading and trailing
whitespace. -/
def stripList (l : List Char) : List Char :=
  ((l.dropWhile isPyWs).reverse.dropWhile isPyWs).reverse

/-- Python `str.strip()`. -/
def pyStrip (s : String) : String :=
  String.mk (stripList s.data)

/-- Python `str.lower()` (ASCII letters). -/
def lowerString (s : String) : String :=
  String.mk (s.data.map Char.toLower)

/-- Remainder of `l` after an exact literal `p`, when `p` is a prefix. -/
def dropLit : List Char → List Char → Option (List Char)
  | [], l => some l
  | _ :: _, [] => none
  | p :: ps, c :: cs => if c = p then dropLit ps cs else none

/-- Does `l` start with the literal `needle`? -/
def startsLit (needle l : List Char) : Bool :=
  (dropLit needle l).isSome

/-- Python substring test `needle in hay` on character lists. -/
def containsAux (needle : List Char) : List Char → Bool
  | [] => needle.isEmpty
  | c :: rest => startsLit needle (c :: rest) || containsAux needle rest

/-- Python substring test `needle in hay`. -/
def strContains (hay needle : String) : Bool :=
  containsAux needle.data hay.data

/-- Python `str.split(sep)` for a one-character separator. -/
def splitChar (c : Char) : List Char → List (List Char)
  | [] => [[]]
  | x :: xs =>
    if x = c then [] :: splitChar c xs
    else
      match splitChar c xs with
      | [] => [[x]]
      | h :: t => (x :: h) :: t

/-- Python `s.split(c)[0]`. -/
def headSplit (s : String) (c : Char) : String :=
  String.mk ((splitChar c s.data).headD [])

/-- Python `s.split(c)[-1]` (the split list is never empty). -/
def lastSplit (s : String) (c : Char) : String :=
  String.mk ((splitChar c s.data).getLastD [])

/-- Python slice `s[:n]` (by characters). -/
def pyTake (n : Nat) (s : String) : String :=
  String.mk (s.data.take n)

/-- Python `sep.join(parts)`. -/
def joinWith (sep : String) : List String → String
  | [] => ""
  | [x] => x
  | x :: y :: rest => x ++ sep ++ joinWith sep (y :: rest)

/-! ## Regex scanners used by `scrape_film_details` -/

/-- Match of `re.search(r'/\s*(\d{4})\s*/', ·)` anchored at the head of the
list: a slash, optional whitespace, exactly four digits, optional whitespace,
a slash.  Returns the captured four digits. -/
def yearAt (l : List Char) : Option (List Char) :=
  match l with
  | '/' :: r =>
    match r.dropWhile isPyWs with
    | d1 :: d2 :: d3 :: d4 :: r2 =>
      if d1.isDigit && d2.isDigit && d3.isDigit && d4.isDigit then
        match r2.dropWhile isPyWs with
        | '/' :: _ => some [d1, d2, d3, d4]
        | _ => none
      else none
    | _ => none
  | _ => none

/-- Leftmost match of the year pattern (`re.search` scans start positions
left to right). -/
def firstYear : List Char → Option (List Char)
  | [] => none
  | c :: rest =>
    match yearAt (c :: rest) with
    | some m => some m
    | none => firstYear rest

/-- `re.search(r'/\s*(\d{4})\s*/', text)`, returning group 1. -/
def yearMatch (s : String) : Option String :=
  (firstYear s.data).map String.mk

/-- Match of `re.search(r'/\s*(\d+\s*mins?)\s*/', ·)` anchored at the head:
a slash, optional whitespace, one or more digits, optional whitespace,
`min` with an optional `s`, optional whitespace, a slash.  Returns the
captured group `\d+\s*mins?`. -/
def runtimeAt (l : List Char) : Option (List Char) :=
  match l with
  | '/' :: r =>
    let r1 := r.dropWhile isPyWs
    let ds := r1.takeWhile Char.isDigit
    if ds.isEmpty then none
    else
      let r2 := r1.drop ds.length
      let ws2 := r2.takeWhile isPyWs
      match r2.dropWhile isPyWs with
      | 'm' :: 'i' :: 'n' :: r3 =>
        match r3 with
        | 's' :: r4 =>
          match r4.dropWhile isPyWs with
          | '/' :: _ => some (ds ++ ws2 ++ ['m', 'i', 'n', 's'])
          | _ => none
        | _ =>
          match r3.dropWhile isPyWs with
          | '/' :: _ => some (ds ++ ws2 ++ ['m', 'i', 'n'])
          | _ => none
      | _ => none
  | _ => none

/-- Leftmost match of the runtime pattern. -/
def firstRuntime : List Char → Option (List Char)
  | [] => none
  | c :: rest =>
    match runtimeAt (c :: rest) with
    | some m => some m
    | none => firstRuntime rest

/-- `re.search(r'/\s*(\d+\s*mins?)\s*/', text)`, returning group 1. -/
def runtimeMatch (s : String) : Option String :=
  (firstRuntime s.data).map String.mk

/-- Attempt `[^\n\r]+` at offset `q` into `r`: succeeds when a character is
present there that is not a newline, capturing greedily up to the next
newline or the end. -/
def adviceAtPos (r : List Char) (q : Nat) : Option (List Char) :=
  match r.drop q with
  | c :: _ =>
    if c ≠ '\n' && c ≠ '\r' then
      some ((r.drop q).takeWhile (fun x => x ≠ '\n' && x ≠ '\r'))
    else none
  | [] => none

/-- Backtracking of the greedy `\s*` before `[^\n\r]+`: try the longest
whitespace run first, then shorter ones. -/
def adviceTryFrom (r : List Char) : Nat → Option (List Char)
  | 0 => adviceAtPos r 0
  | Nat.succ q =>
    match adviceAtPos r (Nat.succ q) with
    | some m => some m
    | none => adviceTryFrom r q

/-- The literal label of the viewer-advice pattern. -/
def adviceLit : List Char := "Viewer Advice:".data

/-- Leftmost match of `re.search(r'Viewer Advice:\s*([^\n\r]+)', ·)`,
returning group 1. -/
def searchAdvice : List Char → Option (List Char)
  | [] => none
  | c :: rest =>
    match dropLit adviceLit (c :: rest) with
    | some r =>
      match adviceTryFrom r (r.takeWhile isPyWs).length with
      | some m => some m
      | none => searchAdvice rest
    | none => searchAdvice rest

/-- `re.search(r'Viewer Advice:\s*([^\n\r]+)', text)`, returning group 1. -/
def adviceMatch (s : String) : Option String :=
  (searchAdvice s.data).map String.mk

/-! ## The Film record and the film-page document model -/

/-- One Film record, the dictionary built by `scrape_film_details`. -/
structure Film where
  film_url : String
  film_id : String
  title : String
  director : String
  year : String
  runtime : String
  countries : String
  languages : String
  genres : String
  premiere_status : String
  strands : String
  description : String
  synopsis : String
  viewer_advice : String
  review_quotes : String
deriving DecidableEq

/-- A parsed film-detail page, holding exactly the query results that
`scrape_film_details` reads from the soup: the first `h1` text, the first
`.title`/`.film-title` element text, all `(href, text)` link pairs,
the whole-page text, all paragraph texts, and all `blockquote`/`q` texts
(element texts are `get_text(strip=True)` results). -/
structure FilmDoc where
  h1 : Option String
  selTitle : Option String
  links : List (String × String)
  pageText : String
  paragraphs : List String
  quoteElems : List String
deriving DecidableEq

/-- The freshly initialised `film_data` dictionary. -/
def initFilm (film_url : String) : Film :=
  { film_url := film_url
    film_id := lastSplit film_url '/'
    title := ""
    director := ""
    year := ""
    runtime := ""
    countries := ""
    languages := ""
    genres := ""
    premiere_status := ""
    strands := ""
    description := ""
    synopsis := ""
    viewer_advice := ""
    review_quotes := "" }

/-- One step of the metadata-link scan: the `elif` chain classifying a link
by its href pattern.  `director` and `premiere_status` overwrite; the four
list-valued fields append `", " ++ text` when non-empty, else start with
`text` (no membership check). -/
def applyLink (fd : Film) (link : String × String) : Film :=
  let href := link.1
  let text := link.2
  if strContains href "/program/search?director=" then
    { fd with director := text }
  else if strContains href "/program/search?origin=" then
    { fd with countries := if fd.countries ≠ "" then fd.countries ++ ", " ++ text else text }
  else if strContains href "/program/search?language=" then
    { fd with languages := if fd.languages ≠ "" then fd.languages ++ ", " ++ text else text }
  else if strContains href "/program/search?genre=" then
    { fd with genres := if fd.genres ≠ "" then fd.genres ++ ", " ++ text else text }
  else if strContains href "/program/search?premiere-status=" then
    { fd with premiere_status := text }
  else if strContains href "/program/strand/" then
    { fd with strands := if fd.strands ≠ "" then fd.strands ++ ", " ++ text else text }
  else fd

/-- The qualifying description paragraphs: longer than 50 characters and
containing none of the denylist substrings (checked on the lowercased
text). -/
def filmDescriptions (doc : FilmDoc) : List String :=
  doc.paragraphs.filter (fun t =>
    t.length > 50 &&
    !(strContains (lowerString t) "viewer advice" ||
      strContains (lowerString t) "presented by" ||
      strContains (lowerString t) "tickets" ||
      strContains (lowerString t) "accessibility"))

/-- Quotes taken from `blockquote`/`q` elements: non-empty and longer than
20 characters. -/
def filmElemQuotes (doc : FilmDoc) : List String :=
  doc.quoteElems.filter (fun q => q ≠ "" && q.length > 20)

/-- Quotes recovered from paragraphs: containing a double quote and an
en dash or em dash, and longer than 30 characters. -/
def filmParaQuotes (doc : FilmDoc) : List String :=
  doc.paragraphs.filter (fun t =>
    strContains t "\"" && (strContains t "–" || strContains t "—") && t.length > 30)

/-- The field-extraction logic of `scrape_film_details` (the part after the
page has been fetched and parsed). -/
def scrape_film_details (film_url : String) (doc : FilmDoc) : Film :=
  let fd := initFilm film_url
  let fd :=
    match doc.h1 with
    | some t => { fd with title := t }
    | none =>
      match doc.selTitle with
      | some t => { fd with title := t }
      | none => fd
  let fd := doc.links.foldl applyLink fd
  let fd :=
    match yearMatch doc.pageText with
    | some y => { fd with year := y }
    | none => fd
  let fd :=
    match runtimeMatch doc.pageText with
    | some r => { fd with runtime := r }
    | none => fd
  let fd :=
    match adviceMatch doc.pageText with
    | some a => { fd with viewer_advice := pyStrip a }
    | none => fd
  let descriptions := filmDescriptions doc
  let fd :=
    match descriptions with
    | [] => fd
    | d :: _ => { fd with description := d, synopsis := joinWith " " descriptions }
  let quotes := filmElemQuotes doc ++ filmParaQuotes doc
  { fd with review_quotes := joinWith " | " (quotes.take 3) }

/-! ## Regex scanners used by `scrape_schedule_for_date` -/

/-- Tail of the first time alternative after `\d{1,2}` has matched `d`:
a colon, two digits, optional whitespace, `a` or `p`, then `m`. -/
def timeAlt1Tail (d : List Char) (r : List Char) : Option (List Char) :=
  match r with
  | ':' :: c1 :: c2 :: r2 =>
    if c1.isDigit && c2.isDigit then
      let ws := r2.takeWhile isPyWs
      match r2.dropWhile isPyWs with
      | ap :: 'm' :: _ =>
        if ap == 'a' || ap == 'p' then some (d ++ [':', c1, c2] ++ ws ++ [ap, 'm']) else none
      | _ => none
    else none
  | _ => none

/-- First alternative `\d{1,2}:\d{2}\s*[ap]m` anchored at the head, with the
greedy one-or-two-digit backtracking of the regex engine. -/
def timeAlt1At (l : List Char) : Option (List Char) :=
  match l with
  | a :: b :: r =>
    if a.isDigit then
      if b.isDigit then
        match timeAlt1Tail [a, b] r with
        | some m => some m
        | none => timeAlt1Tail [a] (b :: r)
      else timeAlt1Tail [a] (b :: r)
    else none
  | _ => none

/-- Tail of the second time alternative after `\d{1,2}` has matched `d`:
optional whitespace, `a` or `p`, then `m`. -/
def timeAlt2Tail (d : List Char) (r : List Char) : Option (List Char) :=
  let ws := r.takeWhile isPyWs
  match r.dropWhile isPyWs with
  | ap :: 'm' :: _ =>
    if ap == 'a' || ap == 'p' then some (d ++ ws ++ [ap, 'm']) else none
  | _ => none

/-- Second alternative `\d{1,2}\s*[ap]m` anchored at the head. -/
def timeAlt2At (l : List Char) : Option (List Char) :=
  match l with
  | a :: r =>
    if a.isDigit then
      match r with
      | b :: r2 =>
        if b.isDigit then
          match timeAlt2Tail [a, b] r2 with
          | some m => some m
          | none => timeAlt2Tail [a] r
        else timeAlt2Tail [a] r
      | [] => none
    else none
  | [] => none

/-- Match of `r'\d{1,2}:\d{2}\s*[ap]m|\d{1,2}\s*[ap]m'` anchored at the
head: the engine tries the first alternative, then the second. -/
def timeTokenAt (l : List Char) : Option (List Char) :=
  match timeAlt1At l with
  | some m => some m
  | none => timeAlt2At l

/-- Leftmost match of the sweep-1 time pattern, i.e. `time_matches[0]` of
`re.findall(r'\d{1,2}:\d{2}\s*[ap]m|\d{1,2}\s*[ap]m', ·)`. -/
def firstTimeList : List Char → Option (List Char)
  | [] => none
  | c :: rest =>
    match timeTokenAt (c :: rest) with
    | some m => some m
    | none => firstTimeList rest

/-- First time token in a context string, if any. -/
def firstTimeToken (s : String) : Option String :=
  (firstTimeList s.data).map String.mk

/-- Characters at which a venue-name match stops: the class `[^|,\n]`. -/
def venueStop (c : Char) : Bool :=
  c == '|' || c == ',' || c == '\n'

/-- Case-insensitive literal-prefix match, returning the text as it appears
together with the remainder. -/
def ciDropLit : List Char → List Char → Option (List Char × List Char)
  | [], l => some ([], l)
  | _ :: _, [] => none
  | p :: ps, c :: cs =>
    if c.toLower = p.toLower then
      match ciDropLit ps cs with
      | some (m, r) => some (c :: m, r)
      | none => none
    else none

/-- One venue alternative: a case-insensitive literal, optionally extended
by the greedy `[^|,\n]*`. -/
def venueAlt (pat : List Char) (extend : Bool) (l : List Char) : Option (List Char) :=
  match ciDropLit pat l with
  | some (m, r) => some (m ++ (if extend then r.takeWhile (fun c => !venueStop c) else []))
  | none => none

/-- Sweep-1 venue pattern `(ACMI|Hoyts[^|,\n]*|Capitol[^|,\n]*|Forum[^|,\n]*|Arts Centre[^|,\n]*)`
anchored at the head, alternatives tried in order (case-insensitive). -/
def venue1At (l : List Char) : Option (List Char) :=
  match venueAlt "ACMI".data false l with
  | some m => some m
  | none =>
    match venueAlt "Hoyts".data true l with
    | some m => some m
    | none =>
      match venueAlt "Capitol".data true l with
      | some m => some m
      | none =>
        match venueAlt "Forum".data true l with
        | some m => some m
        | none => venueAlt "Arts Centre".data true l

/-- Sweep-2 venue pattern `(ACMI|Hoyts[^|,\n]*|Capitol[^|,\n]*|Forum[^|,\n]*)`
anchored at the head (no `Arts Centre` alternative). -/
def venue2At (l : List Char) : Option (List Char) :=
  match venueAlt "ACMI".data false l with
  | some m => some m
  | none =>
    match venueAlt "Hoyts".data true l with
    | some m => some m
    | none =>
      match venueAlt "Capitol".data true l with
      | some m => some m
      | none => venueAlt "Forum".data true l

/-- Leftmost match of the sweep-1 venue pattern. -/
def firstVenue1List : List Char → Option (List Char)
  | [] => none
  | c :: rest =>
    match venue1At (c :: rest) with
    | some m => some m
    | none => firstVenue1List rest

/-- First sweep-1 venue token, if any. -/
def firstVenue1 (s : String) : Option String :=
  (firstVenue1List s.data).map String.mk

/-- Leftmost match of the sweep-2 venue pattern. -/
def firstVenue2List : List Char → Option (List Char)
  | [] => none
  | c :: rest =>
    match venue2At (c :: rest) with
    | some m => some m
    | none => firstVenue2List rest

/-- First sweep-2 venue token, if any. -/
def firstVenue2 (s : String) : Option String :=
  (firstVenue2List s.data).map String.mk

/-- Anchored occurrence of `\d{1,2}[ap]m` at the head of the list (used by
the unanchored containment search of `find_all(text=re.compile(...))`). -/
def shortTimeAt (l : List Char) : Bool :=
  match l with
  | a :: rest =>
    a.isDigit &&
      (match rest with
       | b :: r2 =>
         (b.isDigit &&
           (match r2 with
            | ap :: 'm' :: _ => ap == 'a' || ap == 'p'
            | _ => false)) ||
         (match rest with
          | ap :: 'm' :: _ => ap == 'a' || ap == 'p'
          | _ => false)
       | [] => false)
  | [] => false

/-- Unanchored search for `\d{1,2}[ap]m`: the `find_all` text filter. -/
def containsShortTime : List Char → Bool
  | [] => false
  | c :: rest => shortTimeAt (c :: rest) || containsShortTime rest

/-- The suffix `[ap]m$` of the exact sweep-2 time check, with `$` accepting
the end of the string or a lone trailing newline. -/
def shortTimeEnd : List Char → Bool
  | ap :: 'm' :: r => (ap == 'a' || ap == 'p') && (r == [] || r == ['\n'])
  | _ => false

/-- `re.match(r'\d{1,2}[ap]m$', ·)`: the token anchored at the start. -/
def exactShortTime (l : List Char) : Bool :=
  match l with
  | a :: rest =>
    a.isDigit &&
      (match rest with
       | b :: r2 =>
         (b.isDigit && shortTimeEnd r2) || shortTimeEnd rest
       | [] => false)
  | [] => false

/-! ## The Session record and the schedule-grid document model -/

/-- One Session record, the dictionary built by `scrape_schedule_for_date`.
Sweep-1 records carry a `context` and no `extraction_method` key; sweep-2
records carry `extraction_method = "time_slot"` and no `context` key.
The reconciler reads `context` with `session.get('context', '')`. -/
structure Session where
  date : String
  film_title : String
  film_id : String
  film_url : String
  venue : String
  time : String
  context : Option String
  extraction_method : Option String
deriving DecidableEq

/-- One film link as seen by sweep 1: its href, its stripped text, and the
stripped texts of its ancestor chain, innermost parent first. -/
structure LinkOcc where
  href : String
  text : String
  ancestorTexts : List String
deriving DecidableEq

/-- The container of a time text node, as read by sweep 2: its whole
stripped text and the `(href, text)` pairs of the links nested under it. -/
structure AnchorNode where
  containerText : String
  links : List (String × String)
deriving DecidableEq

/-- A document text node together with its parent container (a text node at
the document root has none). -/
structure TimeText where
  text : String
  parent : Option AnchorNode
deriving DecidableEq

/-- A parsed schedule-grid page: every `(a, href=True)` link occurrence
(walked by sweep 1) and every text node (filtered by sweep 2). -/
structure ScheduleDoc where
  links : List LinkOcc
  timeTexts : List TimeText
deriving DecidableEq

/-- The context string built by walking up to four ancestors, prepending
each ancestor's text and a space (`context_text = parent_text + " " +
context_text`). -/
def contextOf (occ : LinkOcc) : String :=
  (occ.ancestorTexts.take 4).foldl (fun ctx p => p ++ " " ++ ctx) ""

/-- The sweep-1 session row for one film link (`resolve` models
`urljoin(base_url, ·)`). -/
def mkSweep1 (resolve : String → String) (date_str : String) (occ : LinkOcc) : Session :=
  let film_url := resolve (headSplit occ.href '#')
  let context_text := contextOf occ
  { date := date_str
    film_title := occ.text
    film_id := lastSplit film_url '/'
    film_url := film_url
    venue := match firstVenue1 context_text with
             | some v => pyStrip v
             | none => "Unknown"
    time := match firstTimeToken context_text with
            | some t => t
            | none => "Unknown"
    context := some (pyTake 200 context_text)
    extraction_method := none }

/-- Sweep 1: one row per hyperlink whose href contains the film-detail
pattern. -/
def sweep1 (resolve : String → String) (date_str : String)
    (links : List LinkOcc) : List Session :=
  links.foldl (fun sessions occ =>
    if strContains occ.href "/program/film/" then
      sessions ++ [mkSweep1 resolve date_str occ]
    else sessions) []

/-- The sweep-2 session row for one film link nested under a time-slot
anchor. -/
def mkSweep2 (resolve : String → String) (date_str time_clean containerText : String)
    (link : String × String) : Session :=
  let film_url := resolve (headSplit link.1 '#')
  { date := date_str
    film_title := link.2
    film_id := lastSplit film_url '/'
    film_url := film_url
    venue := match firstVenue2 containerText with
             | some v => pyStrip v
             | none => "Unknown"
    time := time_clean
    context := none
    extraction_method := some "time_slot" }

/-- The rows contributed by one text node in sweep 2: the node must contain
the short time pattern (the `find_all` filter), its stripped text must match
the pattern exactly, and it must have a parent; then every nested
film-detail link yields a row. -/
def sweep2Rows (resolve : String → String) (date_str : String) (tt : TimeText) : List Session :=
  if containsShortTime tt.text.data then
    let time_clean := pyStrip tt.text
    if exactShortTime time_clean.data then
      match tt.parent with
      | some anchor =>
        anchor.links.foldl (fun acc link =>
          if strContains link.1 "/program/film/" then
            acc ++ [mkSweep2 resolve date_str time_clean anchor.containerText link]
          else acc) []
      | none => []
    else []
  else []

/-- Sweep 2 over all text nodes. -/
def sweep2 (resolve : String → String) (date_str : String)
    (timeTexts : List TimeText) : List Session :=
  timeTexts.foldl (fun sessions tt => sessions ++ sweep2Rows resolve date_str tt) []

/-- The session-extraction logic of `scrape_schedule_for_date`: sweep 1
appends its rows, then sweep 2 appends its rows to the same list. -/
def scrape_schedule_for_date (resolve : String → String) (date_str : String)
    (doc : ScheduleDoc) : List Session :=
  sweep1 resolve date_str doc.links ++ sweep2 resolve date_str doc.timeTexts

/-! ## The deduplication step of `scrape_all_sessions` -/

/-- The composite deduplication key. -/
def sessionKey (s : Session) : String × String × String × String :=
  (s.date, s.film_id, s.venue, s.time)

/-- The deduplication loop, carrying the `seen` key set (modelled as a
list) and the accumulated `unique_sessions`. -/
def dedupeAux : List Session → List (String × String × String × String) →
    List Session → List Session
  | [], _, unique => unique
  | s :: rest, seen, unique =>
    if sessionKey s ∈ seen then dedupeAux rest seen unique
    else dedupeAux rest (sessionKey s :: seen) (unique ++ [s])

/-- The deduplication step of `scrape_all_sessions`: keep the first record
observed per composite key, in discovery order. -/
def dedupeSessions (l : List Session) : List Session :=
  dedupeAux l [] []

/-! ## The Reconciler: `combine_films_and_sessions` -/

/-- One combined row: the Film's fields copied verbatim plus the four
session columns (`combined_row = film.copy(); combined_row.update(...)`). -/
structure CombinedRecord where
  film : Film
  session_date : String
  session_venue : String
  session_time : String
  session_context : String
deriving DecidableEq

/-- A Python dict grouping sessions by a string key, modelled as an
association list in insertion order. -/
def insertGroup : List (String × List Session) → String → Session →
    List (String × List Session)
  | [], k, s => [(k, [s])]
  | (k₁, ss) :: rest, k, s =>
    if k₁ = k then (k₁, ss ++ [s]) :: rest
    else (k₁, ss) :: insertGroup rest k s

/-- Building `sessions_by_film_id` / `sessions_by_film_title`: append each
session to the bucket of its key, in discovery order. -/
def groupByKey (key : Session → String) (l : List Session) : List (String × List Session) :=
  l.foldl (fun g s => insertGroup g (key s) s) []

/-- `dict.get(k, [])`. -/
def lookupGroup : List (String × List Session) → String → List Session
  | [], _ => []
  | (k₁, ss) :: rest, k => if k₁ = k then ss else lookupGroup rest k

/-- The sessions the Reconciler attaches to one film: the id bucket, or the
lowercased-title bucket when the id bucket is empty and the lowercased
title is non-empty. -/
def matchedSessions (sessions : List Session) (film : Film) : List Session :=
  let byId := lookupGroup (groupByKey (fun s => s.film_id) sessions) film.film_id
  if byId.isEmpty && lowerString film.title != "" then
    lookupGroup (groupByKey (fun s => lowerString s.film_title) sessions) (lowerString film.title)
  else byId

/-- A combined row for a matched session (`session.get('context', '')`). -/
def combineRow (film : Film) (s : Session) : CombinedRecord :=
  { film := film
    session_date := s.date
    session_venue := s.venue
    session_time := s.time
    session_context := s.context.getD "" }

/-- The sessionless placeholder row. -/
def noSessionsRow (film : Film) : CombinedRecord :=
  { film := film
    session_date := ""
    session_venue := ""
    session_time := ""
    session_context := "No sessions found" }

/-- The rows contributed by one film: one per matched session, else the
placeholder. -/
def rowsForFilm (sessions : List Session) (film : Film) : List CombinedRecord :=
  if (matchedSessions sessions film).isEmpty then [noSessionsRow film]
  else (matchedSessions sessions film).map (combineRow film)

/-- `combine_films_and_sessions`: one pass over the films list, appending
each film's rows. -/
def combine_films_and_sessions (films : List Film) (sessions : List Session) :
    List CombinedRecord :=
  films.foldl (fun combined film => combined ++ rowsForFilm sessions film) []

/-- A film `f` and a session `s` are paired by the Reconciler's matching
policy: `f` is in the films list and `s` is among the sessions attached to
`f`, so the output contains the row `combineRow f s`. -/
def pairedWith (films : List Film) (sessions : List Session) (f : Film) (s : Session) : Prop :=
  f ∈ films ∧ s ∈ matchedSessions sessions f

/-! ## The URL Discoverer: `get_all_film_urls` -/

/-- Processing the links of one listing page: for each href containing the
film-detail pattern, strip the fragment, resolve against the base URL, and
add to the working set when new; returns the set and the count of new URLs
(`page_films`). -/
def processListingPage (resolve : String → String) (hrefs : List String)
    (acc : List String) : List String × Nat :=
  hrefs.foldl (fun st href =>
    if strContains href "/program/film/" then
      let full := resolve (headSplit href '#')
      if full ∈ st.1 then st else (st.1 ++ [full], st.2 + 1)
    else st) (acc, 0)

/-- The pagination loop over the remaining page numbers.  `fetch p = none`
models a non-success status or a raised exception (both `break`); a page
contributing zero new URLs also breaks.  Returns the working set and the
number of pages fetched. -/
def discoverPages (resolve : String → String) (fetch : Nat → Option (List String)) :
    List Nat → List String → List String × Nat
  | [], acc => (acc, 0)
  | p :: rest, acc =>
    match fetch p with
    | none => (acc, 1)
    | some hrefs =>
      let st := processListingPage resolve hrefs acc
      if st.2 = 0 then (st.1, 1)
      else
        let res := discoverPages resolve fetch rest st.1
        (res.1, res.2 + 1)

/-- The page numbers visited by `for page in range(1, 25)`. -/
def listingPages : List Nat := List.range' 1 24

/-- `get_all_film_urls`: iterate the listing pages from page 1, starting
from an empty working set.  The second component counts the listing pages
actually fetched. -/
def get_all_film_urls (resolve : String → String) (fetch : Nat → Option (List String)) :
    List String × Nat :=
  discoverPages resolve fetch listingPages []

/-! ## Lemmas about the grouping dictionaries -/

theorem lookupGroup_insertGroup (g : List (String × List Session)) (k₁ : String)
    (s : Session) (k : String) :
    lookupGroup (insertGroup g k₁ s) k
      = lookupGroup g k ++ (if k₁ = k then [s] else []) := by
  induction g with
  | nil =>
    by_cases h : k₁ = k <;> simp [insertGroup, lookupGroup, h]
  | cons hd tl ih =>
    obtain ⟨k₂, ss⟩ := hd
    by_cases h1 : k₂ = k₁
    · subst h1
      by_cases h2 : k₂ = k <;> simp [insertGroup, lookupGroup, h2]
    · by_cases h2 : k₂ = k
      · subst h2
        have h3 : ¬k₁ = k₂ := fun h => h1 h.symm
        simp [insertGroup, lookupGroup, h1, h3]
      · simp [insertGroup, lookupGroup, h1, h2, ih]

theorem lookupGroup_groupStep (key : Session → String) (l : List Session) :
    ∀ (g : List (String × List Session)) (k : String),
      lookupGroup (l.foldl (fun g s => insertGroup g (key s) s) g) k
        = lookupGroup g k ++ l.filter (fun s => decide (key s = k)) := by
  induction l with
  | nil => intro g k; simp
  | cons s rest ih =>
    intro g k
    simp only [List.foldl_cons, List.filter_cons]
    rw [ih, lookupGroup_insertGroup]
    by_cases h : key s = k <;> simp [h, List.append_assoc]

/-- The grouped lookups of `combine_films_and_sessions` are order-preserving
filters of the session list. -/
theorem lookupGroup_groupByKey (key : Session → String) (l : List Session) (k : String) :
    lookupGroup (groupByKey key l) k = l.filter (fun s => decide (key s = k)) := by
  unfold groupByKey
  rw [lookupGroup_groupStep]
  simp [lookupGroup]

/-- The Reconciler's matching policy, written as filters: sessions with the
film's id, or — when there are none and the lowercased title is non-empty —
sessions with the film's lowercased title. -/
theorem matchedSessions_eq (sessions : List Session) (f : Film) :
    matchedSessions sessions f =
      if (sessions.filter (fun s => decide (s.film_id = f.film_id))).isEmpty
          && lowerString f.title != "" then
        sessions.filter (fun s => decide (lowerString s.film_title = lowerString f.title))
      else
        sessions.filter (fun s => decide (s.film_id = f.film_id)) := by
  unfold matchedSessions
  rw [lookupGroup_groupByKey, lookupGroup_groupByKey]

/-! ## Lemmas about the Reconciler -/

theorem foldl_append_acc {α β : Type} (g : α → List β) (l : List α) :
    ∀ acc : List β,
      l.foldl (fun acc a => acc ++ g a) acc
        = acc ++ l.foldl (fun acc a => acc ++ g a) [] := by
  induction l with
  | nil => intro acc; simp
  | cons a rest ih =>
    intro acc
    simp only [List.foldl_cons]
    rw [ih (acc ++ g a), ih ([] ++ g a)]
    simp [List.append_assoc]

theorem combine_cons (f : Film) (films : List Film) (sessions : List Session) :
    combine_films_and_sessions (f :: films) sessions
      = rowsForFilm sessions f ++ combine_films_and_sessions films sessions := by
  unfold combine_films_and_sessions
  simp only [List.foldl_cons]
  rw [foldl_append_acc (rowsForFilm sessions) films ([] ++ rowsForFilm sessions f)]
  simp

theorem mem_combine {films : List Film} {sessions : List Session} {r : CombinedRecord} :
    r ∈ combine_films_and_sessions films sessions
      ↔ ∃ f ∈ films, r ∈ rowsForFilm sessions f := by
  induction films with
  | nil => simp [combine_films_and_sessions]
  | cons f rest ih =>
    rw [combine_cons]
    simp only [List.mem_append, List.mem_cons, ih]
    constructor
    · rintro (h | ⟨g, hg, hr⟩)
      · exact ⟨f, Or.inl rfl, h⟩
      · exact ⟨g, Or.inr hg, hr⟩
    · rintro ⟨g, hg | hg, hr⟩
      · exact Or.inl (hg ▸ hr)
      · exact Or.inr ⟨g, hg, hr⟩

theorem rowsForFilm_film {sessions : List Session} {f : Film} {r : CombinedRecord}
    (h : r ∈ rowsForFilm sessions f) : r.film = f := by
  unfold rowsForFilm at h
  split at h
  · simp only [List.mem_singleton] at h
    subst h; rfl
  · obtain ⟨s, -, rfl⟩ := List.mem_map.1 h
    rfl

theorem rowsForFilm_ne_nil (sessions : List Session) (f : Film) :
    rowsForFilm sessions f ≠ [] := by
  unfold rowsForFilm
  split
  · simp
  · next hne =>
    simp only [ne_eq, List.map_eq_nil_iff]
    intro hnil
    exact hne (by simp [hnil])

theorem rowsForFilm_of_no_match {sessions : List Session} {f : Film}
    (h : matchedSessions sessions f = []) :
    rowsForFilm sessions f = [noSessionsRow f] := by
  unfold rowsForFilm
  simp [h]

theorem combine_film_mem {films : List Film} {sessions : List Session} {r : CombinedRecord}
    (h : r ∈ combine_films_and_sessions films sessions) : r.film ∈ films := by
  obtain ⟨f, hf, hr⟩ := mem_combine.1 h
  rw [rowsForFilm_film hr]
  exact hf

theorem countP_combine_not_mem {sessions : List Session} {f : Film} {films : List Film}
    (hnot : f ∉ films) :
    (combine_films_and_sessions films sessions).countP (fun r => decide (r.film = f)) = 0 := by
  rw [List.countP_eq_zero]
  intro r hr
  simp only [decide_eq_true_eq]
  intro hrf
  exact hnot (hrf ▸ combine_film_mem hr)

theorem countP_combine_of_no_match {sessions : List Session} {f : Film}
    (hm : matchedSessions sessions f = []) :
    ∀ {films : List Film}, f ∈ films → films.Nodup →
      (combine_films_and_sessions films sessions).countP (fun r => decide (r.film = f)) = 1 := by
  intro films
  induction films with
  | nil => intro hf; simp at hf
  | cons g rest ih =>
    intro hf hnd
    rw [combine_cons, List.countP_append]
    rcases List.mem_cons.1 hf with h | h
    · subst h
      rw [rowsForFilm_of_no_match hm]
      rw [countP_combine_not_mem (List.nodup_cons.1 hnd).1]
      have hfilm : (noSessionsRow f).film = f := rfl
      simp [List.countP_cons, hfilm]
    · have hgf : ¬g = f := by
        rintro rfl
        exact (List.nodup_cons.1 hnd).1 h
      have h1 : (rowsForFilm sessions g).countP (fun r => decide (r.film = f)) = 0 := by
        rw [List.countP_eq_zero]
        intro r hr
        simp only [decide_eq_true_eq]
        rw [rowsForFilm_film hr]
        exact hgf
      rw [h1, ih h (List.nodup_cons.1 hnd).2]

theorem combine_no_match_row {films : List Film} {sessions : List Session} {f : Film}
    {r : CombinedRecord} (hm : matchedSessions sessions f = [])
    (hr : r ∈ combine_films_and_sessions films sessions) (hrf : r.film = f) :
    r = noSessionsRow f := by
  obtain ⟨g, hg, hrow⟩ := mem_combine.1 hr
  have hgf : g = f := by rw [← rowsForFilm_film hrow, hrf]
  subst hgf
  rw [rowsForFilm_of_no_match hm] at hrow
  simpa using hrow

/-- C1.  Join completeness of the Reconciler: every film in the list
yields at least one combined record carrying its fields verbatim, and a
film with zero matched sessions (by id, and by the title fallback) yields
exactly one record, with empty session fields and the sessionless marker. -/
theorem join_completeness (films : List Film) (sessions : List Session) (f : Film)
    (hf : f ∈ films) (hnd : films.Nodup) :
    (∃ r ∈ combine_films_and_sessions films sessions, r.film = f) ∧
    (matchedSessions sessions f = [] →
      (combine_films_and_sessions films sessions).countP (fun r => decide (r.film = f)) = 1 ∧
      ∀ r ∈ combine_films_and_sessions films sessions, r.film = f →
        r.session_date = "" ∧ r.session_venue = "" ∧ r.session_time = "" ∧
        r.session_context = "No sessions found") := by
  constructor
  · obtain ⟨r, hr⟩ : ∃ r, r ∈ rowsForFilm sessions f := by
      cases hrw : rowsForFilm sessions f with
      | nil => exact absurd hrw (rowsForFilm_ne_nil sessions f)
      | cons a t => exact ⟨a, by simp [hrw]⟩
    exact ⟨r, mem_combine.2 ⟨f, hf, hr⟩, rowsForFilm_film hr⟩
  · intro hm
    refine ⟨countP_combine_of_no_match hm hf hnd, ?_⟩
    intro r hr hrf
    rw [combine_no_match_row hm hr hrf]
    exact ⟨rfl, rfl, rfl, rfl⟩

/-- Concrete input for the C1 witness: one film, no sessions. -/
def filmC1 : Film := { initFilm "https://miff.com.au/program/film/solo" with title := "Solo" }

/-- C1 witness: the theorem applied to a one-film list with no sessions. -/
theorem join_completeness_witness :
    (combine_films_and_sessions [filmC1] []).countP (fun r => decide (r.film = filmC1)) = 1 :=
  ((join_completeness [filmC1] [] filmC1 (by decide) (by decide)).2 (by decide)).1

/-! ## C2: cross-film leakage -/

theorem mem_matchedSessions {sessions : List Session} {f : Film} {s : Session}
    (h : s ∈ matchedSessions sessions f) :
    s.film_id = f.film_id ∨ lowerString s.film_title = lowerString f.title := by
  rw [matchedSessions_eq] at h
  split at h
  · right
    simpa using (List.of_mem_filter h)
  · left
    simpa using (List.of_mem_filter h)

/-- The film of the C2 counterexample that matches the session by id. -/
def filmC2A : Film := { initFilm "https://miff.com.au/program/film/x" with title := "Alpha" }

/-- The film of the C2 counterexample that steals the session by title. -/
def filmC2B : Film := { initFilm "https://miff.com.au/program/film/y" with title := "Echoes" }

/-- The leaked session: film id `x`, film title `Echoes`. -/
def sessC2 : Session :=
  { date := "2025-08-08", film_title := "Echoes", film_id := "x"
    film_url := "https://miff.com.au/program/film/x", venue := "ACMI", time := "7:00pm"
    context := some "ctx", extraction_method := none }

/-- C2 counterexample: the same session is paired with two distinct films —
with `filmC2A` by the id rule, and with `filmC2B` by the title fallback —
and both combined rows are in the output, refuting the claim that a session
never appears under more than one film. -/
theorem cross_film_leakage_cex :
    filmC2A ≠ filmC2B ∧
    pairedWith [filmC2A, filmC2B] [sessC2] filmC2A sessC2 ∧
    pairedWith [filmC2A, filmC2B] [sessC2] filmC2B sessC2 ∧
    combineRow filmC2A sessC2 ∈ combine_films_and_sessions [filmC2A, filmC2B] [sessC2] ∧
    combineRow filmC2B sessC2 ∈ combine_films_and_sessions [filmC2A, filmC2B] [sessC2] := by
  exact ⟨by decide, ⟨by decide, by decide⟩, ⟨by decide, by decide⟩, by decide, by decide⟩

/-- C2 as amended: when one session is paired with two distinct films, the
films share a film id, or share a lowercased title, or one matches the
session's film id while the other matches its lowercased title through the
fallback. -/
theorem leakage_characterization (films : List Film) (sessions : List Session)
    (f g : Film) (s : Session)
    (hf : pairedWith films sessions f s) (hg : pairedWith films sessions g s)
    (hfg : f ≠ g) :
    f.film_id = g.film_id ∨
    lowerString f.title = lowerString g.title ∨
    (s.film_id = f.film_id ∧ lowerString s.film_title = lowerString g.title) ∨
    (s.film_id = g.film_id ∧ lowerString s.film_title = lowerString f.title) := by
  obtain ⟨-, hsf⟩ := hf
  obtain ⟨-, hsg⟩ := hg
  rcases mem_matchedSessions hsf with h1 | h1 <;> rcases mem_matchedSessions hsg with h2 | h2
  · exact Or.inl (h1 ▸ h2 ▸ rfl)
  · exact Or.inr (Or.inr (Or.inl ⟨h1, h2⟩))
  · exact Or.inr (Or.inr (Or.inr ⟨h2, h1⟩))
  · exact Or.inr (Or.inl (h1 ▸ h2 ▸ rfl))

/-- C2 witness: the amended characterization at the counterexample input. -/
theorem leakage_characterization_witness :
    filmC2A.film_id = filmC2B.film_id ∨
    lowerString filmC2A.title = lowerString filmC2B.title ∨
    (sessC2.film_id = filmC2A.film_id ∧ lowerString sessC2.film_title = lowerString filmC2B.title) ∨
    (sessC2.film_id = filmC2B.film_id ∧ lowerString sessC2.film_title = lowerString filmC2A.title) :=
  leakage_characterization [filmC2A, filmC2B] [sessC2] filmC2A filmC2B sessC2
    ⟨by decide, by decide⟩ ⟨by decide, by decide⟩ (by decide)

/-! ## C7: the title fallback fires only without an id match -/

/-- The film of the C7 scenario: id `x`, title `Echoes`. -/
def filmC7 : Film := { initFilm "https://miff.com.au/program/film/x" with title := "Echoes" }

/-- The session matched by id in the C7 scenario. -/
def sessC7A : Session :=
  { date := "2025-08-09", film_title := "Echoes", film_id := "x"
    film_url := "https://miff.com.au/program/film/x", venue := "Forum", time := "6:00pm"
    context := some "c1", extraction_method := none }

/-- The session with no film id but case-different title `echoes`. -/
def sessC7B : Session :=
  { date := "2025-08-10", film_title := "echoes", film_id := ""
    film_url := "", venue := "ACMI", time := "9:00pm"
    context := some "c2", extraction_method := none }

/-- C7 counterexample: in the claimed scenario the Reconciler produces
exactly one CombinedRecord for the film — the id match — not two; the
title fallback is not consulted because an id match exists. -/
theorem title_fallback_scenario_cex :
    combine_films_and_sessions [filmC7] [sessC7A, sessC7B] = [combineRow filmC7 sessC7A] ∧
    (combine_films_and_sessions [filmC7] [sessC7A, sessC7B]).length = 1 := by
  refine ⟨by decide, by decide⟩

/-- C7 as amended: whenever some session matches the film's id, the matched
set is exactly the id filter, so the case-insensitive title fallback
contributes nothing. -/
theorem id_match_disables_title_fallback (sessions : List Session) (f : Film)
    (h : ∃ s ∈ sessions, s.film_id = f.film_id) :
    matchedSessions sessions f
      = sessions.filter (fun s => decide (s.film_id = f.film_id)) := by
  rw [matchedSessions_eq]
  obtain ⟨s, hs, hid⟩ := h
  have hne : sessions.filter (fun s => decide (s.film_id = f.film_id)) ≠ [] := by
    intro hnil
    have : s ∈ sessions.filter (fun s => decide (s.film_id = f.film_id)) :=
      List.mem_filter.2 ⟨hs, by simp [hid]⟩
    rw [hnil] at this
    simp at this
  have hempty : (sessions.filter (fun s => decide (s.film_id = f.film_id))).isEmpty = false := by
    rw [List.isEmpty_eq_false]
    exact hne
  simp [hempty]

/-- C7 witness: the amended statement at the scenario input. -/
theorem id_match_disables_title_fallback_witness :
    matchedSessions [sessC7A, sessC7B] filmC7
      = [sessC7A, sessC7B].filter (fun s => decide (s.film_id = filmC7.film_id)) :=
  id_match_disables_title_fallback [sessC7A, sessC7B] filmC7 ⟨sessC7A, by decide, by decide⟩

/-! ## C3: the deduplicator -/

/-- Recursive form of the deduplication loop, used to reason about
`dedupeAux` (the accumulated output is factored out). -/
def dedupeGo : List Session → List (String × String × String × String) → List Session
  | [], _ => []
  | s :: rest, seen =>
    if sessionKey s ∈ seen then dedupeGo rest seen
    else s :: dedupeGo rest (sessionKey s :: seen)

theorem dedupeAux_eq_go (l : List Session) :
    ∀ seen acc, dedupeAux l seen acc = acc ++ dedupeGo l seen := by
  induction l with
  | nil => intro seen acc; simp [dedupeAux, dedupeGo]
  | cons s rest ih =>
    intro seen acc
    by_cases h : sessionKey s ∈ seen
    · simp [dedupeAux, dedupeGo, h, ih]
    · simp [dedupeAux, dedupeGo, h, ih, List.append_assoc]

theorem dedupeSessions_eq_go (l : List Session) : dedupeSessions l = dedupeGo l [] := by
  unfold dedupeSessions
  rw [dedupeAux_eq_go]
  simp

theorem dedupeGo_key_not_seen (l : List Session) :
    ∀ seen, ∀ s ∈ dedupeGo l seen, sessionKey s ∉ seen := by
  induction l with
  | nil => intro seen s hs; simp [dedupeGo] at hs
  | cons t rest ih =>
    intro seen s hs
    unfold dedupeGo at hs
    split at hs
    · exact ih seen s hs
    · rcases List.mem_cons.1 hs with h | h
      · subst h
        assumption
      · intro hmem
        exact ih _ s h (List.mem_cons_of_mem _ hmem)

theorem dedupeGo_pairwise (l : List Session) :
    ∀ seen, (dedupeGo l seen).Pairwise (fun a b => sessionKey a ≠ sessionKey b) := by
  induction l with
  | nil => intro seen; simp [dedupeGo]
  | cons t rest ih =>
    intro seen
    unfold dedupeGo
    split
    · exact ih seen
    · rw [List.pairwise_cons]
      refine ⟨?_, ih _⟩
      intro b hb hkey
      exact dedupeGo_key_not_seen rest _ b hb (hkey ▸ List.mem_cons_self _ _)

theorem dedupeGo_covers (l : List Session) :
    ∀ seen, ∀ s ∈ l,
      sessionKey s ∈ seen ∨ ∃ t ∈ dedupeGo l seen, sessionKey t = sessionKey s := by
  induction l with
  | nil => intro seen s hs; simp at hs
  | cons u rest ih =>
    intro seen s hs
    unfold dedupeGo
    rcases List.mem_cons.1 hs with h | h
    · subst h
      by_cases hu : sessionKey s ∈ seen
      · exact Or.inl hu
      · exact Or.inr ⟨s, by simp [hu], rfl⟩
    · by_cases hu : sessionKey u ∈ seen
      · rcases ih seen s h with hk | ⟨t, ht, hkey⟩
        · exact Or.inl hk
        · exact Or.inr ⟨t, by simp [hu, ht], hkey⟩
      · rcases ih (sessionKey u :: seen) s h with hk | ⟨t, ht, hkey⟩
        · rcases List.mem_cons.1 hk with hk | hk
          · exact Or.inr ⟨u, by simp [hu], hk.symm⟩
          · exact Or.inl hk
        · exact Or.inr ⟨t, by simp [hu, List.mem_cons_of_mem _ ht], hkey⟩

theorem dedupeGo_find (l : List Session) (k : String × String × String × String) :
    ∀ seen, k ∉ seen →
      (dedupeGo l seen).find? (fun s => decide (sessionKey s = k))
        = l.find? (fun s => decide (sessionKey s = k)) := by
  induction l with
  | nil => intro seen _; simp [dedupeGo]
  | cons u rest ih =>
    intro seen hk
    unfold dedupeGo
    by_cases hu : sessionKey u ∈ seen
    · have hne : ¬sessionKey u = k := fun h => hk (h ▸ hu)
      rw [if_pos hu, List.find?_cons_of_neg _ (by simpa using hne), ih seen hk]
    · rw [if_neg hu]
      by_cases heq : sessionKey u = k
      · rw [List.find?_cons_of_pos _ (by simpa using heq),
            List.find?_cons_of_pos _ (by simpa using heq)]
      · rw [List.find?_cons_of_neg _ (by simpa using heq),
            List.find?_cons_of_neg _ (by simpa using heq)]
        refine ih _ ?_
        intro hmem
        rcases List.mem_cons.1 hmem with h | h
        · exact heq h.symm
        · exact hk h

/-- C3.  Deduplicator correctness: the output of the dedup step of
`scrape_all_sessions` has pairwise-distinct composite keys, covers every
key of the input, and keeps, for each key, exactly the first record
observed in discovery order (so two records identical except for their
context collapse to the first-seen one). -/
theorem dedupe_correct (l : List Session) :
    (dedupeSessions l).Pairwise (fun a b => sessionKey a ≠ sessionKey b) ∧
    (∀ s ∈ l, ∃ t ∈ dedupeSessions l, sessionKey t = sessionKey s) ∧
    (∀ k : String × String × String × String,
      (dedupeSessions l).find? (fun s => decide (sessionKey s = k))
        = l.find? (fun s => decide (sessionKey s = k))) := by
  rw [dedupeSessions_eq_go]
  refine ⟨dedupeGo_pairwise l [], ?_, ?_⟩
  · intro s hs
    rcases dedupeGo_covers l [] s hs with hk | h
    · simp at hk
    · exact h
  · intro k
    exact dedupeGo_find l k [] (by simp)

/-- First record of the C3 witness scenario. -/
def sessC3A : Session :=
  { date := "7 Aug", film_title := "X", film_id := "x"
    film_url := "https://miff.com.au/program/film/x", venue := "ACMI", time := "7:00pm"
    context := some "first", extraction_method := none }

/-- Second record of the C3 witness scenario: identical except `context`. -/
def sessC3B : Session :=
  { date := "7 Aug", film_title := "X", film_id := "x"
    film_url := "https://miff.com.au/program/film/x", venue := "ACMI", time := "7:00pm"
    context := some "second", extraction_method := none }

/-- C3 witness: the theorem applied to the two-same-key-records scenario;
the key of the second record is still covered by the output. -/
theorem dedupe_correct_witness :
    ∃ t ∈ dedupeSessions [sessC3A, sessC3B], sessionKey t = sessionKey sessC3B :=
  (dedupe_correct [sessC3A, sessC3B]).2.1 sessC3B (by decide)

/-! ## Structure lemmas for the schedule-grid sweeps -/

theorem timeAlt1Tail_ne_nil {d r m : List Char} (h : timeAlt1Tail d r = some m) :
    m ≠ [] := by
  unfold timeAlt1Tail at h
  split at h
  · split at h
    · split at h
      · split at h
        · injection h with h
          subst h
          simp
        · cases h
      · cases h
    · cases h
  · cases h

theorem timeAlt2Tail_ne_nil {d r m : List Char} (h : timeAlt2Tail d r = some m) :
    m ≠ [] := by
  unfold timeAlt2Tail at h
  split at h
  · split at h
    · injection h with h
      subst h
      simp
    · cases h
  · cases h

theorem timeAlt1At_ne_nil {l m : List Char} (h : timeAlt1At l = some m) : m ≠ [] := by
  cases l with
  | nil => simp [timeAlt1At] at h
  | cons a l1 =>
    cases l1 with
    | nil => simp [timeAlt1At] at h
    | cons b r =>
      simp only [timeAlt1At] at h
      by_cases hda : a.isDigit = true
      · rw [if_pos hda] at h
        by_cases hdb : b.isDigit = true
        · rw [if_pos hdb] at h
          cases h1 : timeAlt1Tail [a, b] r with
          | some m1 =>
            rw [h1] at h
            simp only [Option.some.injEq] at h
            subst h
            exact timeAlt1Tail_ne_nil h1
          | none =>
            rw [h1] at h
            exact timeAlt1Tail_ne_nil h
        · rw [if_neg hdb] at h
          exact timeAlt1Tail_ne_nil h
      · rw [if_neg hda] at h
        cases h

theorem timeAlt2At_ne_nil {l m : List Char} (h : timeAlt2At l = some m) : m ≠ [] := by
  cases l with
  | nil => simp [timeAlt2At] at h
  | cons a r =>
    simp only [timeAlt2At] at h
    by_cases hda : a.isDigit = true
    · rw [if_pos hda] at h
      split at h
      · rename_i b r2
        by_cases hdb : b.isDigit = true
        · rw [if_pos hdb] at h
          cases h1 : timeAlt2Tail [a, b] r2 with
          | some m1 =>
            rw [h1] at h
            simp only [Option.some.injEq] at h
            subst h
            exact timeAlt2Tail_ne_nil h1
          | none =>
            rw [h1] at h
            exact timeAlt2Tail_ne_nil h
        · rw [if_neg hdb] at h
          exact timeAlt2Tail_ne_nil h
      · cases h
    · rw [if_neg hda] at h
      cases h

theorem timeTokenAt_ne_nil {l m : List Char} (h : timeTokenAt l = some m) : m ≠ [] := by
  unfold timeTokenAt at h
  cases h1 : timeAlt1At l with
  | some m1 =>
    rw [h1] at h
    simp only [Option.some.injEq] at h
    subst h
    exact timeAlt1At_ne_nil h1
  | none =>
    rw [h1] at h
    exact timeAlt2At_ne_nil h

theorem firstTimeList_ne_nil {l m : List Char} (h : firstTimeList l = some m) : m ≠ [] := by
  induction l with
  | nil => simp [firstTimeList] at h
  | cons c rest ih =>
    unfold firstTimeList at h
    cases h1 : timeTokenAt (c :: rest) with
    | some m1 =>
      rw [h1] at h
      simp only [Option.some.injEq] at h
      subst h
      exact timeTokenAt_ne_nil h1
    | none =>
      rw [h1] at h
      exact ih h

theorem firstTimeToken_ne_empty {s : String} {t : String}
    (h : firstTimeToken s = some t) : t ≠ "" := by
  unfold firstTimeToken at h
  cases hm : firstTimeList s.data with
  | none => rw [hm] at h; cases h
  | some m =>
    rw [hm] at h
    injection h with h
    subst h
    intro he
    exact firstTimeList_ne_nil hm (congrArg String.data he)

theorem exactShortTime_ne_nil {l : List Char} (h : exactShortTime l = true) : l ≠ [] := by
  intro he
  subst he
  simp [exactShortTime] at h

theorem sweep1_foldl (resolve : String → String) (date : String) (links : List LinkOcc) :
    ∀ acc : List Session,
      links.foldl (fun sessions occ =>
        if strContains occ.href "/program/film/" then
          sessions ++ [mkSweep1 resolve date occ]
        else sessions) acc
      = acc ++ (links.filter (fun occ => strContains occ.href "/program/film/")).map
          (mkSweep1 resolve date) := by
  induction links with
  | nil => intro acc; simp
  | cons occ rest ih =>
    intro acc
    simp only [List.foldl_cons, List.filter_cons]
    by_cases h : strContains occ.href "/program/film/" = true
    · simp [h, ih, List.append_assoc]
    · simp only [h]
      rw [ih]
      simp [h]

/-- Sweep 1 in closed form: one row for each film-detail link, in order. -/
theorem sweep1_eq (resolve : String → String) (date : String) (links : List LinkOcc) :
    sweep1 resolve date links
      = (links.filter (fun occ => strContains occ.href "/program/film/")).map
          (mkSweep1 resolve date) := by
  unfold sweep1
  rw [sweep1_foldl]
  simp

theorem sweep2_inner_foldl (resolve : String → String) (date tc ct : String)
    (links : List (String × String)) :
    ∀ acc : List Session,
      links.foldl (fun acc link =>
        if strContains link.1 "/program/film/" then
          acc ++ [mkSweep2 resolve date tc ct link]
        else acc) acc
      = acc ++ (links.filter (fun link => strContains link.1 "/program/film/")).map
          (mkSweep2 resolve date tc ct) := by
  induction links with
  | nil => intro acc; simp
  | cons link rest ih =>
    intro acc
    simp only [List.foldl_cons, List.filter_cons]
    by_cases h : strContains link.1 "/program/film/" = true
    · simp [h, ih, List.append_assoc]
    · simp only [h]
      rw [ih]
      simp [h]

/-- The rows of one sweep-2 text node in closed form. -/
theorem sweep2Rows_eq (resolve : String → String) (date : String) (tt : TimeText) :
    sweep2Rows resolve date tt
      = if containsShortTime tt.text.data && exactShortTime (pyStrip tt.text).data then
          match tt.parent with
          | some a =>
            (a.links.filter (fun link => strContains link.1 "/program/film/")).map
              (mkSweep2 resolve date (pyStrip tt.text) a.containerText)
          | none => []
        else [] := by
  unfold sweep2Rows
  by_cases h1 : containsShortTime tt.text.data = true
  · by_cases h2 : exactShortTime (pyStrip tt.text).data = true
    · cases hp : tt.parent with
      | none => simp [h1, h2, hp]
      | some a =>
        simp only [h1, h2, hp, if_pos, Bool.and_self]
        rw [sweep2_inner_foldl]
        simp
    · simp [h1, h2]
  · simp [h1]

theorem sweep2_foldl (resolve : String → String) (date : String) (tts : List TimeText) :
    ∀ acc : List Session,
      tts.foldl (fun sessions tt => sessions ++ sweep2Rows resolve date tt) acc
        = acc ++ tts.foldl (fun sessions tt => sessions ++ sweep2Rows resolve date tt) [] :=
  foldl_append_acc (sweep2Rows resolve date) tts

theorem sweep2_cons (resolve : String → String) (date : String) (tt : TimeText)
    (rest : List TimeText) :
    sweep2 resolve date (tt :: rest)
      = sweep2Rows resolve date tt ++ sweep2 resolve date rest := by
  unfold sweep2
  simp only [List.foldl_cons]
  rw [sweep2_foldl]
  simp

theorem mem_sweep2 {resolve : String → String} {date : String} {tts : List TimeText}
    {s : Session} :
    s ∈ sweep2 resolve date tts ↔ ∃ tt ∈ tts, s ∈ sweep2Rows resolve date tt := by
  induction tts with
  | nil => simp [sweep2]
  | cons tt rest ih =>
    rw [sweep2_cons]
    simp only [List.mem_append, List.mem_cons, ih]
    constructor
    · rintro (h | ⟨u, hu, hs⟩)
      · exact ⟨tt, Or.inl rfl, h⟩
      · exact ⟨u, Or.inr hu, hs⟩
    · rintro ⟨u, hu | hu, hs⟩
      · exact Or.inl (hu ▸ hs)
      · exact Or.inr ⟨u, hu, hs⟩

/-! ## C5: session retention in the schedule-grid extractor -/

/-- The film link of the C5 counterexample: its ancestor context contains
no recoverable time token. -/
def occC5 : LinkOcc :=
  { href := "/program/film/abc", text := "Some Film", ancestorTexts := ["no times here"] }

/-- The schedule document of the C5 counterexample. -/
def docC5 : ScheduleDoc := { links := [occC5], timeTexts := [] }

/-- C5 counterexample: a row whose time could not be recovered is retained
with the sentinel time `Unknown`, not discarded. -/
theorem retention_cex :
    (scrape_schedule_for_date (fun s => s) "2025-08-07" docC5).map Session.time
      = ["Unknown"] := by
  decide

/-- C5 as amended: the link-walk sweep retains one session per film-detail
link — with the first recovered time token, or the sentinel `Unknown` when
none is recoverable — and every session emitted for a date has a non-empty
time field. -/
theorem schedule_time_nonblank (resolve : String → String) (date : String)
    (doc : ScheduleDoc) :
    sweep1 resolve date doc.links
      = (doc.links.filter (fun occ => strContains occ.href "/program/film/")).map
          (mkSweep1 resolve date) ∧
    ∀ s ∈ scrape_schedule_for_date resolve date doc, s.time ≠ "" := by
  refine ⟨sweep1_eq resolve date doc.links, ?_⟩
  intro s hs
  rcases List.mem_append.1 hs with h | h
  · rw [sweep1_eq] at h
    obtain ⟨occ, -, rfl⟩ := List.mem_map.1 h
    show (mkSweep1 resolve date occ).time ≠ ""
    unfold mkSweep1
    cases hm : firstTimeToken (contextOf occ) with
    | none => simp [hm]
    | some t =>
      simpa [hm] using firstTimeToken_ne_empty hm
  · obtain ⟨tt, -, hrow⟩ := mem_sweep2.1 h
    rw [sweep2Rows_eq] at hrow
    split at hrow
    · next hg =>
      cases hp : tt.parent with
      | none => rw [hp] at hrow; simp at hrow
      | some a =>
        rw [hp] at hrow
        obtain ⟨link, -, rfl⟩ := List.mem_map.1 hrow
        show (mkSweep2 resolve date (pyStrip tt.text) a.containerText link).time ≠ ""
        have hx : exactShortTime (pyStrip tt.text).data = true := by
          simp only [Bool.and_eq_true] at hg
          exact hg.2
        unfold mkSweep2
        intro he
        exact exactShortTime_ne_nil hx (congrArg String.data he)
    · simp at hrow

/-- C5 witness: the amended statement at the counterexample document — the
retained sentinel-time session has a non-empty time. -/
theorem schedule_time_nonblank_witness :
    (mkSweep1 (fun s => s) "2025-08-07" occC5).time ≠ "" :=
  (schedule_time_nonblank (fun s => s) "2025-08-07" docC5).2
    (mkSweep1 (fun s => s) "2025-08-07" occC5) (by decide)

/-! ## C9: time-slot anchoring in sweep 2 -/

/-- The anchor node of the C9 counterexample, holding a nested film link. -/
def anchorC9 : AnchorNode :=
  { containerText := "7:30pm ACMI", links := [("/program/film/abc", "Some Film")] }

/-- The C9 counterexample document: a text node whose entire text is the
time token `7:30pm` (with minutes), whose parent holds a film link. -/
def docC9 : ScheduleDoc :=
  { links := [], timeTexts := [{ text := "7:30pm", parent := some anchorC9 }] }

/-- C9 counterexample: a text node exactly matching `H:MM pm` is NOT
treated as a time-slot anchor — the second sweep produces nothing for it,
because the anchor check `\d{1,2}[ap]m$` rejects tokens with minutes. -/
theorem timeslot_minutes_cex :
    scrape_schedule_for_date (fun s => s) "2025-08-07" docC9 = [] := by
  decide

/-- C9 as amended: exactly the text nodes whose stripped text matches the
minute-less token `\d{1,2}[ap]m` anchor sweep 2; each film-detail link
nested under such an anchor yields a session with the stripped node text as
its time, the sweep-2 venue search scoped to the anchor's text, and the
`time_slot` extraction marker — and every sweep-2 session carries that
marker and an exactly-matching minute-less time. -/
theorem sweep2_anchor_characterization (resolve : String → String) (date : String)
    (doc : ScheduleDoc) :
    (∀ tt ∈ doc.timeTexts, ∀ a : AnchorNode, tt.parent = some a →
      containsShortTime tt.text.data = true →
      exactShortTime (pyStrip tt.text).data = true →
      ∀ link ∈ a.links, strContains link.1 "/program/film/" = true →
        mkSweep2 resolve date (pyStrip tt.text) a.containerText link
          ∈ scrape_schedule_for_date resolve date doc) ∧
    (∀ s ∈ sweep2 resolve date doc.timeTexts,
      s.extraction_method = some "time_slot" ∧ exactShortTime s.time.data = true) := by
  constructor
  · intro tt htt a hp h1 h2 link hlink hfilm
    unfold scrape_schedule_for_date
    refine List.mem_append.2 (Or.inr ?_)
    refine mem_sweep2.2 ⟨tt, htt, ?_⟩
    rw [sweep2Rows_eq, if_pos (by simp [h1, h2]), hp]
    exact List.mem_map.2 ⟨link, List.mem_filter.2 ⟨hlink, hfilm⟩, rfl⟩
  · intro s hs
    obtain ⟨tt, -, hrow⟩ := mem_sweep2.1 hs
    rw [sweep2Rows_eq] at hrow
    split at hrow
    · next hg =>
      cases hp : tt.parent with
      | none => rw [hp] at hrow; simp at hrow
      | some a =>
        rw [hp] at hrow
        obtain ⟨link, -, rfl⟩ := List.mem_map.1 hrow
        refine ⟨rfl, ?_⟩
        simp only [Bool.and_eq_true] at hg
        exact hg.2
    · simp at hrow

/-- The minute-less anchor of the C9 witness. -/
def anchorC9W : AnchorNode :=
  { containerText := "9am Forum Melbourne", links := [("/program/film/xyz", "Another Film")] }

/-- The C9 witness document: a `9am` text node anchoring a film link. -/
def docC9W : ScheduleDoc :=
  { links := [], timeTexts := [{ text := " 9am ", parent := some anchorC9W }] }

/-- C9 witness: the amended statement applied to a minute-less anchor — the
session produced for the nested film link is in the extractor's output. -/
theorem sweep2_anchor_characterization_witness :
    mkSweep2 (fun s => s) "2025-08-07" (pyStrip " 9am ") anchorC9W.containerText
        ("/program/film/xyz", "Another Film")
      ∈ scrape_schedule_for_date (fun s => s) "2025-08-07" docC9W :=
  (sweep2_anchor_characterization (fun s => s) "2025-08-07" docC9W).1
    { text := " 9am ", parent := some anchorC9W } (by decide) anchorC9W (by decide)
    (by decide) (by decide) ("/program/film/xyz", "Another Film") (by decide) (by decide)

/-! ## C4: accumulation of the multi-valued film fields -/

/-- The C4 counterexample document: two genre links with the same text. -/
def docC4 : FilmDoc :=
  { h1 := none, selTitle := none
    links := [("/program/search?genre=d", "Drama"), ("/program/search?genre=t", "Drama")]
    pageText := "", paragraphs := [], quoteElems := [] }

/-- C4 counterexample: the comma-joined `genres` value contains the same
member twice — the extractor appends without a presence check. -/
theorem dedup_fields_cex :
    (scrape_film_details "https://miff.com.au/program/film/z" docC4).genres
      = "Drama, Drama" := by
  decide

/-- C4 as amended: `director` and `premiere_status` keep the last matching
link's text by overwriting, while each of the four list-valued fields —
`countries`, `languages`, `genres`, `strands` — appends every matching
link's text unconditionally (comma-joined after the first entry), with no
already-present check, so members can repeat.  Each conjunct fixes the
`elif`-chain position of its pattern. -/
theorem link_fields_no_dedup :
    (∀ (fd : Film) (href text : String),
      strContains href "/program/search?director=" = true →
        (applyLink fd (href, text)).director = text) ∧
    (∀ (fd : Film) (href text : String),
      strContains href "/program/search?director=" = false →
      strContains href "/program/search?origin=" = true →
        (applyLink fd (href, text)).countries
          = if fd.countries ≠ "" then fd.countries ++ ", " ++ text else text) ∧
    (∀ (fd : Film) (href text : String),
      strContains href "/program/search?director=" = false →
      strContains href "/program/search?origin=" = false →
      strContains href "/program/search?language=" = true →
        (applyLink fd (href, text)).languages
          = if fd.languages ≠ "" then fd.languages ++ ", " ++ text else text) ∧
    (∀ (fd : Film) (href text : String),
      strContains href "/program/search?director=" = false →
      strContains href "/program/search?origin=" = false →
      strContains href "/program/search?language=" = false →
      strContains href "/program/search?genre=" = true →
        (applyLink fd (href, text)).genres
          = if fd.genres ≠ "" then fd.genres ++ ", " ++ text else text) ∧
    (∀ (fd : Film) (href text : String),
      strContains href "/program/search?director=" = false →
      strContains href "/program/search?origin=" = false →
      strContains href "/program/search?language=" = false →
      strContains href "/program/search?genre=" = false →
      strContains href "/program/search?premiere-status=" = true →
        (applyLink fd (href, text)).premiere_status = text) ∧
    (∀ (fd : Film) (href text : String),
      strContains href "/program/search?director=" = false →
      strContains href "/program/search?origin=" = false →
      strContains href "/program/search?language=" = false →
      strContains href "/program/search?genre=" = false →
      strContains href "/program/search?premiere-status=" = false →
      strContains href "/program/strand/" = true →
        (applyLink fd (href, text)).strands
          = if fd.strands ≠ "" then fd.strands ++ ", " ++ text else text) := by
  refine ⟨?_, ?_, ?_, ?_, ?_, ?_⟩
  · intro fd href text h
    unfold applyLink
    simp [h]
  · intro fd href text h1 h2
    unfold applyLink
    simp [h1, h2]
  · intro fd href text h1 h2 h3
    unfold applyLink
    simp [h1, h2, h3]
  · intro fd href text h1 h2 h3 h4
    unfold applyLink
    simp [h1, h2, h3, h4]
  · intro fd href text h1 h2 h3 h4 h5
    unfold applyLink
    simp [h1, h2, h3, h4, h5]
  · intro fd href text h1 h2 h3 h4 h5 h6
    unfold applyLink
    simp [h1, h2, h3, h4, h5, h6]

/-- A film record that already carries the genre `Drama`. -/
def filmC4 : Film := { initFilm "https://miff.com.au/program/film/z" with genres := "Drama" }

/-- C4 witness: appending a genre text that is already present duplicates
it rather than being skipped. -/
theorem link_fields_no_dedup_witness :
    (applyLink filmC4 ("/program/search?genre=d", "Drama")).genres = "Drama, Drama" := by
  rw [link_fields_no_dedup.2.2.2.1 filmC4 "/program/search?genre=d" "Drama"
    (by decide) (by decide) (by decide) (by decide)]
  decide

/-! ## C6: totality of the field extractor -/

/-- C6.  Field-extractor totality: on a document with no heading, no
title-selector element, no links, no paragraphs, no quote elements, and a
page text in which none of the year, runtime, or viewer-advice patterns
match, the extraction returns the Film record whose every extracted field
is the empty string (only the URL-derived identity fields are set); being a
total function of the document, it raises nothing. -/
theorem extractor_totality (url : String) (doc : FilmDoc)
    (h1 : doc.h1 = none) (h2 : doc.selTitle = none) (h3 : doc.links = [])
    (h4 : doc.paragraphs = []) (h5 : doc.quoteElems = [])
    (h6 : yearMatch doc.pageText = none) (h7 : runtimeMatch doc.pageText = none)
    (h8 : adviceMatch doc.pageText = none) :
    scrape_film_details url doc =
      { film_url := url, film_id := lastSplit url '/', title := "", director := ""
        year := "", runtime := "", countries := "", languages := "", genres := ""
        premiere_status := "", strands := "", description := "", synopsis := ""
        viewer_advice := "", review_quotes := "" } := by
  unfold scrape_film_details
  rw [h1, h2, h3, h6, h7, h8]
  simp [filmDescriptions, filmElemQuotes, filmParaQuotes, h4, h5, initFilm, joinWith]

/-- The fully empty film-page document. -/
def emptyFilmDoc : FilmDoc :=
  { h1 := none, selTitle := none, links := [], pageText := ""
    paragraphs := [], quoteElems := [] }

/-- C6 witness: the totality theorem applied to the empty document. -/
theorem extractor_totality_witness :
    scrape_film_details "https://miff.com.au/program/film/empty" emptyFilmDoc =
      { film_url := "https://miff.com.au/program/film/empty"
        film_id := lastSplit "https://miff.com.au/program/film/empty" '/'
        title := "", director := "", year := "", runtime := "", countries := ""
        languages := "", genres := "", premiere_status := "", strands := ""
        description := "", synopsis := "", viewer_advice := "", review_quotes := "" } :=
  extractor_totality "https://miff.com.au/program/film/empty" emptyFilmDoc
    rfl rfl rfl rfl rfl (by decide) (by decide) (by decide)

/-! ## C8: the listing-page loop bound -/

/-- C8.  A fetch oracle on which no stop condition ever fires: every page
succeeds and contributes one fresh film URL.  The loop `for page in
range(1, 25)` then fetches exactly 24 listing pages — not the 25 announced
by the code's own comment. -/
theorem listing_loop_fetches_24_pages :
    (get_all_film_urls (fun s => s)
        (fun p => some [String.mk ("/program/film/x".data ++ List.replicate p 'a')])).2
      = 24 := by
  decide

/-! ## C10: review-quote precedence -/

/-- C10.  All qualifying element quotes precede all paragraph-derived
quotes in the review-quote list, and the list is truncated to its first 3
items before joining; hence with at least 3 element quotes the joined value
uses only element quotes, and a paragraph quote can appear only when fewer
than 3 element quotes were found. -/
theorem review_quotes_precedence (url : String) (doc : FilmDoc) :
    (scrape_film_details url doc).review_quotes
        = joinWith " | " ((filmElemQuotes doc ++ filmParaQuotes doc).take 3) ∧
    (3 ≤ (filmElemQuotes doc).length →
      (scrape_film_details url doc).review_quotes
          = joinWith " | " ((filmElemQuotes doc).take 3)) := by
  have hbase : (scrape_film_details url doc).review_quotes
      = joinWith " | " ((filmElemQuotes doc ++ filmParaQuotes doc).take 3) := rfl
  refine ⟨hbase, ?_⟩
  intro h
  rw [hbase, List.take_append_of_le_length h]

/-- The C10 witness document: three qualifying element quotes and one
qualifying paragraph quote. -/
def docC10 : FilmDoc :=
  { h1 := none, selTitle := none, links := [], pageText := ""
    paragraphs := ["\"Stunning work\" – The Daily Sun Review Desk"]
    quoteElems := ["An absolute triumph of modern cinema"
                   , "A dazzling and singular work of art"
                   , "Simply unforgettable festival viewing"] }

/-- C10 witness: with three element quotes present, the joined review
quotes are exactly the first three element quotes — the qualifying
paragraph quote is squeezed out. -/
theorem review_quotes_precedence_witness :
    (scrape_film_details "https://miff.com.au/program/film/q" docC10).review_quotes
      = joinWith " | " ((filmElemQuotes docC10).take 3) :=
  (review_quotes_precedence "https://miff.com.au/program/film/q" docC10).2 (by decide)

end MIFF

